import Mathlib

/-!
Shallow embedding of the Hacker News scraper (src/scrape.py) and proofs of
the specification's claims about it.

The script's pipeline is: select the `.titleline` and `.subtext` element
lists from the fetched page, build a filtered story list with
`create_custom_hn`, which calls `create_story` (and through it
`extract_score`) per index, and sort it with `sort_stories_by_votes`.
Python exceptions (the `ValueError` of `int(...)`, the `IndexError` of
`subtext[index]`) are modelled with `Except String`; Python `None` results
with `Option`.
-/

namespace HN

/-- ASCII whitespace stripped by Python's `int()` before parsing. -/
def isPyWs (c : Char) : Bool :=
  c = ' ' || c = '\t' || c = '\n' || c = '\r' || c = '\x0b' || c = '\x0c'

/-- ASCII decimal digit test, as used by Python's `int()` literal grammar. -/
def isAsciiDigit (c : Char) : Bool :=
  '0' ≤ c && c ≤ '9'

/-- Digit run of a Python integer literal after its first digit: underscores
may appear only singly and only between digits. -/
def digitsCore (acc : Nat) : List Char → Option Nat
  | [] => some acc
  | '_' :: rest =>
    match rest with
    | [] => none
    | c :: cs =>
      if isAsciiDigit c then digitsCore (10 * acc + (c.toNat - 48)) cs else none
  | c :: cs =>
    if isAsciiDigit c then digitsCore (10 * acc + (c.toNat - 48)) cs else none

/-- A nonempty digit run starting with a digit. -/
def parseDigits : List Char → Option Nat
  | [] => none
  | c :: cs => if isAsciiDigit c then digitsCore (c.toNat - 48) cs else none

/-- Python `int(s)` on a decimal string: strip surrounding whitespace, accept
an optional sign and a digit run; `none` models the raised `ValueError`. -/
def pyInt (s : String) : Option Int :=
  let t := ((s.data.dropWhile isPyWs).reverse.dropWhile isPyWs).reverse
  match t with
  | '+' :: rest => (parseDigits rest).map (fun n => (n : Int))
  | '-' :: rest => (parseDigits rest).map (fun n => -(n : Int))
  | _ => (parseDigits t).map (fun n => (n : Int))

/-- Fuel-bounded scan replacing non-overlapping occurrences of `pat` left to
right, as Python's `str.replace`. The fuel is only a structural-recursion
bound; a call with fuel equal to the list length never exhausts it, since
every step consumes at least one character (`pat` is nonempty at the one call
site, the literal `" points"`). -/
def pyReplaceGo (pat repl : List Char) : Nat → List Char → List Char
  | _, [] => []
  | 0, s => s
  | fuel + 1, c :: cs =>
    if pat.isPrefixOf (c :: cs) then
      repl ++ pyReplaceGo pat repl fuel (List.drop (pat.length - 1) cs)
    else
      c :: pyReplaceGo pat repl fuel cs

/-- Python `s.replace(pat, repl)` for nonempty `pat`. -/
def pyReplace (s pat repl : String) : String :=
  ⟨pyReplaceGo pat.data repl.data s.data.length s.data⟩

/-- An `<a>` element as bs4 exposes it to this script: its text and its
attribute list. -/
structure Anchor where
  text : String
  attrs : List (String × String)
deriving DecidableEq, Repr

/-- bs4 `Tag.get(key)`: the attribute's value, or `None` when absent. -/
def Anchor.get (a : Anchor) (key : String) : Option String :=
  (a.attrs.find? (fun p => p.fst == key)).map Prod.snd

/-- A `.titleline` container; `anchors` lists its `<a>` descendants in
document order, so bs4 `find("a")` returns its head (or `None`). -/
structure LinkNode where
  anchors : List Anchor
deriving DecidableEq, Repr

/-- bs4 `link.find("a")`. -/
def LinkNode.find_a (l : LinkNode) : Option Anchor :=
  l.anchors.head?

/-- A `.subtext` container; `scoreTexts` lists the `getText()` of each
`.score` descendant in document order, so bs4 `select(".score")` yields
exactly these strings. -/
structure SubtextNode where
  scoreTexts : List String
deriving DecidableEq, Repr

/-- The record built by `create_story`; field names follow the dict keys. -/
structure Story where
  Title : String
  href : String
  Score : Int
deriving DecidableEq, Repr

/-- Python truthiness of `a_tag.get("href")`: `None` and the empty string are
falsy, every other string is truthy. (A found bs4 `Tag` itself is always
truthy, so the anchor side of `if a_tag and a_tag.get("href")` is decided by
presence alone.) -/
def truthyOptStr : Option String → Bool
  | none => false
  | some s => s != ""

/-- `extract_score`: `vote = subtext_item.select(".score")`, then
`int(vote[0].getText().replace(" points", "")) if vote else 0`. A failed
conversion is the uncaught `ValueError`. -/
def extract_score (subtext_item : SubtextNode) : Except String Int :=
  match subtext_item.scoreTexts with
  | [] => Except.ok 0
  | t :: _ =>
    match pyInt (pyReplace t " points" "") with
    | some n => Except.ok n
    | none => Except.error ("ValueError: invalid literal for int: " ++ t)

/-- `create_story`: without an anchor, or without a truthy `href` attribute,
fall through to Python's implicit `return None`; otherwise extract the score
and build the record iff it exceeds 100. -/
def create_story (link : LinkNode) (subtext_item : SubtextNode) :
    Except String (Option Story) :=
  match link.find_a with
  | none => Except.ok none
  | some a_tag =>
    if truthyOptStr (a_tag.get "href") then
      match extract_score subtext_item with
      | Except.error e => Except.error e
      | Except.ok score =>
        Except.ok
          (if score > 100 then
            some { Title := a_tag.text, href := (a_tag.get "href").getD "",
                   Score := score }
          else none)
    else Except.ok none

/-- Insertion into a descending-sorted list, placing the new element before
the first element whose score does not exceed it: the stable descending
order produced by Python's `sorted(..., reverse=True)`. -/
def insertStoryDesc (s : Story) : List Story → List Story
  | [] => [s]
  | t :: ts =>
    if t.Score ≤ s.Score then s :: t :: ts else t :: insertStoryDesc s ts

/-- `sort_stories_by_votes`: `sorted(stories, key=lambda story:
story["Score"], reverse=True)` — a stable sort by `Score` descending that
returns a new list. -/
def sort_stories_by_votes (stories : List Story) : List Story :=
  stories.foldr insertStoryDesc []

/-- The loop of `create_custom_hn`: `for index, link in enumerate(links)`
with the lookup `subtext[index]`, which raises `IndexError` past the end of
`subtext`; truthy stories are appended to `filtered_stories` (accumulated
here in reverse). -/
def hnLoop : List LinkNode → List SubtextNode → Nat → List Story →
    Except String (List Story)
  | [], _, _, acc => Except.ok acc.reverse
  | link :: rest, subtext, index, acc =>
    match subtext.get? index with
    | none => Except.error "IndexError: list index out of range"
    | some st =>
      match create_story link st with
      | Except.error e => Except.error e
      | Except.ok none => hnLoop rest subtext (index + 1) acc
      | Except.ok (some story) => hnLoop rest subtext (index + 1) (story :: acc)

/-- `create_custom_hn`: run the filtering loop, then sort by votes. -/
def create_custom_hn (links : List LinkNode) (subtext : List SubtextNode) :
    Except String (List Story) :=
  (hnLoop links subtext 0 []).map sort_stories_by_votes

/-- Reference-semantics model of the Python list objects involved in the
`sorted` call: a heap of list cells addressed by position. -/
structure PyHeap where
  cells : List (List Story)
deriving DecidableEq, Repr

/-- The CPython call `sorted(stories, key=..., reverse=True)` on the list at
`addr`: read the argument cell, allocate a fresh cell holding the sorted
copy, and return the fresh address; no existing cell is written. -/
def sortedCall (h : PyHeap) (addr : Nat) : PyHeap × Nat :=
  (⟨h.cells ++ [sort_stories_by_votes (h.cells.getD addr [])]⟩, h.cells.length)

/-! Helper lemmas about `create_story`. -/

/-- A story materialized by `create_story` passed the `score > 100` test. -/
theorem create_story_some_score {l : LinkNode} {st : SubtextNode} {s : Story}
    (h : create_story l st = Except.ok (some s)) : s.Score > 100 := by
  unfold create_story at h
  split at h
  · exact absurd (Except.ok.inj h) (by simp)
  · split at h
    · split at h
      · exact Except.noConfusion h
      · split at h
        · rename_i hscore
          have h2 := Option.some.inj (Except.ok.inj h)
          rw [← h2]
          exact hscore
        · exact absurd (Except.ok.inj h) (by simp)
    · exact absurd (Except.ok.inj h) (by simp)

/-! Helper lemmas about the insertion sort. -/

/-- Membership in an insertion step. -/
theorem mem_insertStoryDesc {s y : Story} {l : List Story} :
    y ∈ insertStoryDesc s l ↔ y = s ∨ y ∈ l := by
  induction l with
  | nil => simp [insertStoryDesc]
  | cons t ts ih =>
    rw [insertStoryDesc]
    by_cases hc : t.Score ≤ s.Score
    · rw [if_pos hc]
      simp [List.mem_cons]
    · rw [if_neg hc]
      simp only [List.mem_cons, ih]
      tauto

/-- An insertion step permutes the plain cons. -/
theorem insertStoryDesc_perm (s : Story) (l : List Story) :
    List.Perm (insertStoryDesc s l) (s :: l) := by
  induction l with
  | nil => exact List.Perm.refl _
  | cons t ts ih =>
    rw [insertStoryDesc]
    by_cases hc : t.Score ≤ s.Score
    · rw [if_pos hc]
    · rw [if_neg hc]
      exact (List.Perm.cons t ih).trans (List.Perm.swap s t ts)

/-- The sort permutes its input. -/
theorem sort_stories_by_votes_perm (l : List Story) :
    List.Perm (sort_stories_by_votes l) l := by
  induction l with
  | nil => exact List.Perm.refl _
  | cons x xs ih =>
    exact (insertStoryDesc_perm x (sort_stories_by_votes xs)).trans
      (List.Perm.cons x ih)

/-- Insertion preserves descending order of scores. -/
theorem pairwise_insertStoryDesc {s : Story} {l : List Story}
    (h : l.Pairwise (fun a b => a.Score ≥ b.Score)) :
    (insertStoryDesc s l).Pairwise (fun a b => a.Score ≥ b.Score) := by
  induction l with
  | nil => simp [insertStoryDesc]
  | cons t ts ih =>
    rw [insertStoryDesc]
    rcases List.pairwise_cons.mp h with ⟨ht, hts⟩
    by_cases hc : t.Score ≤ s.Score
    · rw [if_pos hc]
      refine List.pairwise_cons.mpr ⟨?_, h⟩
      intro y hy
      rcases List.mem_cons.mp hy with h1 | h2
      · exact h1 ▸ hc
      · exact le_trans (ht y h2) hc
    · rw [if_neg hc]
      refine List.pairwise_cons.mpr ⟨?_, ih hts⟩
      intro y hy
      rcases mem_insertStoryDesc.mp hy with h1 | h2
      · exact h1 ▸ le_of_not_le hc
      · exact ht y h2

/-- The sorted list is descending in score. -/
theorem sort_stories_by_votes_pairwise (l : List Story) :
    (sort_stories_by_votes l).Pairwise (fun a b => a.Score ≥ b.Score) := by
  induction l with
  | nil => simp [sort_stories_by_votes]
  | cons x xs ih => exact pairwise_insertStoryDesc ih

/-- An insertion step keeps the sublist of any fixed score intact but for the
inserted element, which lands in front of the equal-scored ones. -/
theorem filter_insertStoryDesc (v : Int) (s : Story) (l : List Story) :
    (insertStoryDesc s l).filter (fun t => decide (t.Score = v)) =
      if s.Score = v then s :: l.filter (fun t => decide (t.Score = v))
      else l.filter (fun t => decide (t.Score = v)) := by
  induction l with
  | nil =>
    by_cases hs : s.Score = v
    · simp [insertStoryDesc, List.filter_cons, hs]
    · simp [insertStoryDesc, List.filter_cons, hs]
  | cons t ts ih =>
    rw [insertStoryDesc]
    by_cases hc : t.Score ≤ s.Score
    · rw [if_pos hc]
      by_cases hs : s.Score = v
      · simp [List.filter_cons, hs]
      · simp [List.filter_cons, hs]
    · rw [if_neg hc]
      by_cases ht : t.Score = v
      · have hs : ¬s.Score = v := by
          intro hsv
          exact hc (le_of_eq (ht.trans hsv.symm))
        simp [List.filter_cons, ht, hs, ih]
      · by_cases hs : s.Score = v
        · simp [List.filter_cons, ht, hs, ih]
        · simp [List.filter_cons, ht, hs, ih]

/-- Stability: the sort fixes the subsequence of each score value. -/
theorem sort_stories_by_votes_filter (v : Int) (l : List Story) :
    (sort_stories_by_votes l).filter (fun t => decide (t.Score = v)) =
      l.filter (fun t => decide (t.Score = v)) := by
  induction l with
  | nil => rfl
  | cons x xs ih =>
    have h : sort_stories_by_votes (x :: xs) =
        insertStoryDesc x (sort_stories_by_votes xs) := rfl
    rw [h, filter_insertStoryDesc]
    by_cases hx : x.Score = v
    · simp [List.filter_cons, hx, ih]
    · simp [List.filter_cons, hx, ih]

/-! Structural recursion equations for the indexed loop of
`create_custom_hn`: starting at index 0, the loop walks the two lists in
lockstep, and raises `IndexError` when `subtext` runs out first. -/

/-- Exhausted links: return the accumulator. -/
theorem hnLoop_nil (subtext : List SubtextNode) (i : Nat) (acc : List Story) :
    hnLoop [] subtext i acc = Except.ok acc.reverse := rfl

/-- Links remain but `subtext` is exhausted: `subtext[index]` raises. -/
theorem hnLoop_cons_nil (link : LinkNode) (rest : List LinkNode) (i : Nat)
    (acc : List Story) :
    hnLoop (link :: rest) [] i acc =
      Except.error "IndexError: list index out of range" := by
  cases i <;> rfl

/-- Shifting the running index by one is dropping one subtext element. -/
theorem hnLoop_shift (links : List LinkNode) (subtext : List SubtextNode)
    (i : Nat) (acc : List Story) :
    hnLoop links subtext (i + 1) acc = hnLoop links (subtext.drop 1) i acc := by
  induction links generalizing i acc with
  | nil => rfl
  | cons link rest ih =>
    simp only [hnLoop]
    have hq : subtext.get? (i + 1) = (subtext.drop 1).get? i := by
      cases subtext <;> simp
    rw [hq]
    cases (subtext.drop 1).get? i with
    | none => rfl
    | some st =>
      dsimp only
      cases create_story link st with
      | error e => rfl
      | ok o =>
        cases o with
        | none => exact ih (i + 1) acc
        | some story => exact ih (i + 1) (story :: acc)

/-- One loop step at the head of both lists. -/
theorem hnLoop_cons_cons (link : LinkNode) (rest : List LinkNode)
    (st : SubtextNode) (subs : List SubtextNode) (acc : List Story) :
    hnLoop (link :: rest) (st :: subs) 0 acc =
      match create_story link st with
      | Except.error e => Except.error e
      | Except.ok none => hnLoop rest subs 0 acc
      | Except.ok (some story) => hnLoop rest subs 0 (story :: acc) := by
  simp only [hnLoop, List.get?_cons_zero]
  cases create_story link st with
  | error e => rfl
  | ok o =>
    cases o with
    | none => exact hnLoop_shift rest (st :: subs) 0 acc
    | some story => exact hnLoop_shift rest (st :: subs) 0 (story :: acc)

/-- Every story in a successful loop result either was accumulated already or
passed `create_story`, hence scores over 100. -/
theorem hnLoop_ok_score (links : List LinkNode) :
    ∀ (subtext : List SubtextNode) (acc out : List Story),
      (∀ s ∈ acc, s.Score > 100) →
      hnLoop links subtext 0 acc = Except.ok out →
      ∀ s ∈ out, s.Score > 100 := by
  induction links with
  | nil =>
    intro subtext acc out hacc h s hs
    rw [hnLoop_nil] at h
    rw [← Except.ok.inj h] at hs
    exact hacc s (List.mem_reverse.mp hs)
  | cons link rest ih =>
    intro subtext acc out hacc h s hs
    cases subtext with
    | nil => rw [hnLoop_cons_nil] at h; exact Except.noConfusion h
    | cons st subs =>
      rw [hnLoop_cons_cons] at h
      cases hc : create_story link st with
      | error e => rw [hc] at h; exact Except.noConfusion h
      | ok o =>
        rw [hc] at h
        cases o with
        | none => exact ih subs acc out hacc h s hs
        | some story =>
          refine ih subs (story :: acc) out ?_ h s hs
          intro y hy
          rcases List.mem_cons.mp hy with h1 | h2
          · exact h1 ▸ create_story_some_score hc
          · exact hacc y h2

/-- When `links` is at most as long as `subtext`, only the first
`links.length` subtext entries are ever read: iteration truncates there. -/
theorem hnLoop_take (links : List LinkNode) :
    ∀ (subtext : List SubtextNode) (acc : List Story),
      links.length ≤ subtext.length →
      hnLoop links subtext 0 acc =
        hnLoop links (subtext.take links.length) 0 acc := by
  induction links with
  | nil => intro subtext acc _; rfl
  | cons link rest ih =>
    intro subtext acc hlen
    cases subtext with
    | nil => exact absurd hlen (by simp)
    | cons st subs =>
      rw [List.length_cons, List.take_succ_cons, hnLoop_cons_cons,
        hnLoop_cons_cons]
      have hlen' : rest.length ≤ subs.length := by
        simpa using hlen
      cases create_story link st with
      | error e => rfl
      | ok o =>
        cases o with
        | none => exact ih subs acc hlen'
        | some story => exact ih subs (story :: acc) hlen'

/-- When `subtext` is strictly shorter than `links`, the loop always ends in
an uncaught exception: either an earlier `create_story` raises, or the
lookup `subtext[index]` raises `IndexError` at the end of `subtext`. -/
theorem hnLoop_short_error (links : List LinkNode) :
    ∀ (subtext : List SubtextNode) (acc : List Story),
      subtext.length < links.length →
      ∃ e, hnLoop links subtext 0 acc = Except.error e := by
  induction links with
  | nil => intro subtext acc hlen; exact absurd hlen (by simp)
  | cons link rest ih =>
    intro subtext acc hlen
    cases subtext with
    | nil => exact ⟨_, hnLoop_cons_nil link rest 0 acc⟩
    | cons st subs =>
      rw [hnLoop_cons_cons]
      have hlen' : subs.length < rest.length := by
        simpa using hlen
      cases hc : create_story link st with
      | error e => exact ⟨e, rfl⟩
      | ok o =>
        cases o with
        | none => exact ih subs acc hlen'
        | some story => exact ih subs (story :: acc) hlen'

/-- An exception raised by `create_story` at any position whose predecessors
all completed normally propagates out of the loop uncaught. -/
theorem hnLoop_prefix_error (link : LinkNode) (post : List LinkNode)
    (st : SubtextNode) (spost : List SubtextNode) (e : String)
    (herr : create_story link st = Except.error e) :
    ∀ (pre : List LinkNode) (spre : List SubtextNode) (acc : List Story),
      pre.length = spre.length →
      (∀ p ∈ pre.zip spre, ∃ r, create_story p.1 p.2 = Except.ok r) →
      hnLoop (pre ++ link :: post) (spre ++ st :: spost) 0 acc =
        Except.error e := by
  intro pre
  induction pre with
  | nil =>
    intro spre acc hlen hok
    have hspre : spre = [] := List.eq_nil_of_length_eq_zero hlen.symm
    subst hspre
    rw [List.nil_append, List.nil_append, hnLoop_cons_cons, herr]
  | cons p pre' ih =>
    intro spre acc hlen hok
    cases spre with
    | nil => exact absurd hlen (by simp)
    | cons sp spre' =>
      rw [List.cons_append, List.cons_append, hnLoop_cons_cons]
      rcases hok (p, sp) (by simp [List.zip_cons_cons]) with ⟨r, hr⟩
      rw [hr]
      have hlen' : pre'.length = spre'.length := by
        simpa using hlen
      have hok' : ∀ q ∈ pre'.zip spre', ∃ r, create_story q.1 q.2 =
          Except.ok r := by
        intro q hq
        exact hok q (by simp [List.zip_cons_cons, hq])
      cases r with
      | none => exact ih spre' acc hlen' hok'
      | some story => exact ih spre' (story :: acc) hlen' hok'

/-! Concrete fixtures for the closed statements. -/

/-- Anchor with text "Foo" and href "http://a". -/
def fooAnchor : Anchor := ⟨"Foo", [("href", "http://a")]⟩

/-- Link node holding `fooAnchor`. -/
def fooLink : LinkNode := ⟨[fooAnchor]⟩

/-- Link node holding an anchor with text "Bar" and href "http://b". -/
def barLink : LinkNode := ⟨[⟨"Bar", [("href", "http://b")]⟩]⟩

/-- Subtext node whose score element reads "150 points". -/
def st150 : SubtextNode := ⟨["150 points"]⟩

/-- Subtext node whose score element reads "500 points". -/
def st500 : SubtextNode := ⟨["500 points"]⟩

/-- Subtext node whose score element reads the singular "1 point". -/
def stOnePoint : SubtextNode := ⟨["1 point"]⟩

/-- Subtext node with no score element. -/
def stEmpty : SubtextNode := ⟨[]⟩

/-- Link node with no anchor descendant. -/
def noAnchorLink : LinkNode := ⟨[]⟩

/-- Link node whose anchor carries an empty-string href attribute. -/
def emptyHrefLink : LinkNode := ⟨[⟨"E", [("href", "")]⟩]⟩

/-- The record built from `fooLink` and `st150`. -/
def storyFoo : Story := ⟨"Foo", "http://a", 150⟩

/-- The record built from `barLink` and `st500`. -/
def storyBar : Story := ⟨"Bar", "http://b", 500⟩

/-! The claims. -/

/-- C1: every Story record in the output of the pipeline
(`create_custom_hn`) has score strictly greater than 100; for every input
pair of link/metadata sequences, no record with score ≤ 100 ever appears in
the returned list. -/
theorem C1_threshold (links : List LinkNode) (subtext : List SubtextNode)
    (out : List Story) (h : create_custom_hn links subtext = Except.ok out) :
    ∀ s ∈ out, s.Score > 100 := by
  unfold create_custom_hn at h
  cases hl : hnLoop links subtext 0 [] with
  | error e => rw [hl] at h; exact Except.noConfusion h
  | ok l =>
    rw [hl] at h
    have hout : sort_stories_by_votes l = out := Except.ok.inj h
    intro s hs
    rw [← hout] at hs
    have hmem : s ∈ l := (sort_stories_by_votes_perm l).mem_iff.mp hs
    refine hnLoop_ok_score links subtext [] l ?_ hl s hmem
    intro y hy
    exact absurd hy (List.not_mem_nil y)

/-- Witness for C1: the concrete run over `fooLink`/`st150` outputs
`storyFoo`, whose score the theorem bounds. -/
theorem C1_threshold_witness : storyFoo.Score > 100 :=
  C1_threshold [fooLink] [st150] [storyFoo] rfl storyFoo
    (List.mem_singleton_self storyFoo)

/-- C2: the list returned by `sort_stories_by_votes` — and hence the list
returned by `create_custom_hn` — is sorted by score descending: every
adjacent pair satisfies `s[i].Score ≥ s[i+1].Score`. -/
theorem C2_sorted_desc :
    (∀ stories : List Story,
      List.Chain' (fun a b => a.Score ≥ b.Score)
        (sort_stories_by_votes stories)) ∧
    (∀ (links : List LinkNode) (subtext : List SubtextNode)
        (out : List Story),
      create_custom_hn links subtext = Except.ok out →
      List.Chain' (fun a b => a.Score ≥ b.Score) out) := by
  constructor
  · intro stories
    exact (sort_stories_by_votes_pairwise stories).chain'
  · intro links subtext out h
    unfold create_custom_hn at h
    cases hl : hnLoop links subtext 0 [] with
    | error e => rw [hl] at h; exact Except.noConfusion h
    | ok l =>
      rw [hl] at h
      have hout : sort_stories_by_votes l = out := Except.ok.inj h
      rw [← hout]
      exact (sort_stories_by_votes_pairwise l).chain'

/-- Witness for C2 on a concrete sort and a concrete pipeline run. -/
theorem C2_sorted_desc_witness :
    List.Chain' (fun a b => a.Score ≥ b.Score)
      (sort_stories_by_votes [storyFoo, storyBar]) ∧
    List.Chain' (fun a b => a.Score ≥ b.Score) [storyBar, storyFoo] :=
  ⟨C2_sorted_desc.1 [storyFoo, storyBar],
   C2_sorted_desc.2 [fooLink, barLink] [st150, st500] [storyBar, storyFoo] rfl⟩

/-- C3: the sort is stable — for each score value, the subsequence of the
output carrying that score equals the subsequence of the input carrying it
(and the output is a permutation of the input), so equal-score stories keep
their input order. -/
theorem C3_stable (stories : List Story) (v : Int) :
    (sort_stories_by_votes stories).filter (fun t => decide (t.Score = v)) =
      stories.filter (fun t => decide (t.Score = v)) ∧
    List.Perm (sort_stories_by_votes stories) stories :=
  ⟨sort_stories_by_votes_filter v stories, sort_stories_by_votes_perm stories⟩

/-- C4: when a score sub-element is present but its text is not
`"<digits> points"` — for example the singular "1 point" — `extract_score`
raises a numeric-parse error, and no caller catches it: whatever well-formed
items precede the bad one, the whole `create_custom_hn` run aborts with that
error and produces no output list. -/
theorem C4_parse_error_propagates
    (link : LinkNode) (a : Anchor) (ha : link.find_a = some a)
    (hhref : truthyOptStr (a.get "href") = true)
    (st : SubtextNode) (t : String) (rest : List String)
    (hst : st.scoreTexts = t :: rest)
    (hbad : pyInt (pyReplace t " points" "") = none)
    (pre : List LinkNode) (spre : List SubtextNode)
    (post : List LinkNode) (spost : List SubtextNode)
    (hlen : pre.length = spre.length)
    (hok : ∀ p ∈ pre.zip spre, ∃ r, create_story p.1 p.2 = Except.ok r) :
    extract_score st =
      Except.error ("ValueError: invalid literal for int: " ++ t) ∧
    create_custom_hn (pre ++ link :: post) (spre ++ st :: spost) =
      Except.error ("ValueError: invalid literal for int: " ++ t) := by
  have hex : extract_score st =
      Except.error ("ValueError: invalid literal for int: " ++ t) := by
    unfold extract_score
    rw [hst]
    dsimp only
    rw [hbad]
  have hcs : create_story link st =
      Except.error ("ValueError: invalid literal for int: " ++ t) := by
    unfold create_story
    rw [ha]
    dsimp only
    rw [if_pos hhref, hex]
  refine ⟨hex, ?_⟩
  unfold create_custom_hn
  rw [hnLoop_prefix_error link post st spost _ hcs pre spre [] hlen hok]
  rfl

/-- Witness for C4: the singular "1 point" aborts a one-item run. -/
theorem C4_parse_error_propagates_witness :
    extract_score stOnePoint =
      Except.error ("ValueError: invalid literal for int: " ++ "1 point") ∧
    create_custom_hn [fooLink] [stOnePoint] =
      Except.error ("ValueError: invalid literal for int: " ++ "1 point") :=
  C4_parse_error_propagates fooLink fooAnchor rfl rfl stOnePoint "1 point" []
    rfl rfl [] [] [] [] rfl
    (fun p hp => absurd hp (List.not_mem_nil p))

/-- C5 counterexample: with two links and only one subtext entry — subtext
the shorter list — the pipeline raises an uncaught `IndexError` instead of
silently truncating to the shorter sequence, so the claim's "regardless of
which of the two lists is the shorter one" fails. -/
theorem C5_counterexample :
    create_custom_hn [fooLink, barLink] [st150] =
      Except.error "IndexError: list index out of range" := rfl

/-- C5 amended: when `links` is at most as long as `subtext`, iteration
silently truncates to `links`' length (extra subtext entries are ignored);
when `subtext` is strictly shorter, the lookup `subtext[index]` raises an
uncaught `IndexError` (unless an earlier item's parse error aborts first)
and no output is produced. -/
theorem C5_amended (links : List LinkNode) (subtext : List SubtextNode) :
    (links.length ≤ subtext.length →
      create_custom_hn links subtext =
        create_custom_hn links (subtext.take links.length)) ∧
    (subtext.length < links.length →
      ∃ e, create_custom_hn links subtext = Except.error e) := by
  constructor
  · intro hlen
    unfold create_custom_hn
    rw [hnLoop_take links subtext [] hlen]
  · intro hlen
    rcases hnLoop_short_error links subtext [] hlen with ⟨e, he⟩
    refine ⟨e, ?_⟩
    unfold create_custom_hn
    rw [he]
    rfl

/-- Witness for C5 amended, on both sides of the length comparison. -/
theorem C5_amended_witness :
    (create_custom_hn [fooLink] [st150, st500] =
      create_custom_hn [fooLink] [st150]) ∧
    (∃ e, create_custom_hn [fooLink, barLink] [st150] = Except.error e) :=
  ⟨(C5_amended [fooLink] [st150, st500]).1 (by decide),
   (C5_amended [fooLink, barLink] [st150]).2 (by decide)⟩

/-- C6: the well-formed pair with anchor text "Foo", href "http://a" and
score text "150 points" yields exactly the record with Title "Foo",
href "http://a" and Score 150, from `create_story` and from the pipeline. -/
theorem C6_scenario_a :
    create_story fooLink st150 = Except.ok (some storyFoo) ∧
    create_custom_hn [fooLink] [st150] = Except.ok [storyFoo] :=
  ⟨rfl, rfl⟩

/-- C7: a link node with no anchor sub-element, or whose anchor has no href
attribute, makes `create_story` return `None` silently — not an error —
regardless of the paired metadata node. -/
theorem C7_skip (link : LinkNode) (st : SubtextNode)
    (h : link.find_a = none ∨
      ∃ a, link.find_a = some a ∧ a.get "href" = none) :
    create_story link st = Except.ok none := by
  rcases h with h1 | ⟨a, ha, hn⟩
  · unfold create_story
    rw [h1]
  · unfold create_story
    rw [ha]
    dsimp only
    rw [hn]
    simp [truthyOptStr]

/-- Witness for C7: a link node with no anchor at all. -/
theorem C7_skip_witness : create_story noAnchorLink st150 = Except.ok none :=
  C7_skip noAnchorLink st150 (Or.inl rfl)

/-- C8: a metadata node with no score sub-element makes `extract_score`
return 0, and the item is excluded: `create_story` returns `None` for it
whatever the link node holds, since 0 is never greater than 100. -/
theorem C8_missing_score (link : LinkNode) (st : SubtextNode)
    (h : st.scoreTexts = []) :
    extract_score st = Except.ok 0 ∧ create_story link st = Except.ok none := by
  have hex : extract_score st = Except.ok 0 := by
    unfold extract_score
    rw [h]
  refine ⟨hex, ?_⟩
  unfold create_story
  cases hfa : link.find_a with
  | none => rfl
  | some a =>
    dsimp only
    by_cases ht : truthyOptStr (a.get "href") = true
    · rw [if_pos ht, hex]
      rfl
    · rw [if_neg ht]

/-- Witness for C8: an empty subtext node against `fooLink`. -/
theorem C8_missing_score_witness :
    extract_score stEmpty = Except.ok 0 ∧
    create_story fooLink stEmpty = Except.ok none :=
  C8_missing_score fooLink stEmpty rfl

/-- C9: an anchor whose href attribute is present but holds the empty string
is also skipped: the truthiness test on the attribute value, not only its
absence, decides the skip. -/
theorem C9_empty_href (link : LinkNode) (st : SubtextNode) (a : Anchor)
    (ha : link.find_a = some a) (hh : a.get "href" = some "") :
    create_story link st = Except.ok none := by
  unfold create_story
  rw [ha]
  dsimp only
  rw [hh]
  simp [truthyOptStr]

/-- Witness for C9: an anchor carrying an empty href value. -/
theorem C9_empty_href_witness :
    create_story emptyHrefLink st150 = Except.ok none :=
  C9_empty_href emptyHrefLink st150 ⟨"E", [("href", "")]⟩ rfl rfl

/-- C10: `sort_stories_by_votes` returns a new list and leaves its input
unchanged: in the heap model of Python list objects, the `sorted` call
leaves the argument's cell exactly as it was, and returns a fresh address
holding the sorted copy. -/
theorem C10_no_mutation (h : PyHeap) (addr : Nat)
    (haddr : addr < h.cells.length) :
    (sortedCall h addr).1.cells.get? addr = h.cells.get? addr ∧
    (sortedCall h addr).2 ≠ addr ∧
    (sortedCall h addr).1.cells.get? (sortedCall h addr).2 =
      some (sort_stories_by_votes (h.cells.getD addr [])) := by
  refine ⟨?_, ?_, ?_⟩
  · exact List.get?_append haddr
  · show h.cells.length ≠ addr
    omega
  · show (h.cells ++ [sort_stories_by_votes (h.cells.getD addr [])]).get?
        h.cells.length = _
    exact List.get?_concat_length _ _

/-- Witness for C10 on a one-cell heap. -/
theorem C10_no_mutation_witness :
    (sortedCall ⟨[[storyFoo, storyBar]]⟩ 0).1.cells.get? 0 =
      (⟨[[storyFoo, storyBar]]⟩ : PyHeap).cells.get? 0 ∧
    (sortedCall ⟨[[storyFoo, storyBar]]⟩ 0).2 ≠ 0 ∧
    (sortedCall ⟨[[storyFoo, storyBar]]⟩ 0).1.cells.get?
        (sortedCall ⟨[[storyFoo, storyBar]]⟩ 0).2 =
      some (sort_stories_by_votes
        ((⟨[[storyFoo, storyBar]]⟩ : PyHeap).cells.getD 0 [])) :=
  C10_no_mutation ⟨[[storyFoo, storyBar]]⟩ 0 (by decide)

end HN
